import Mathlib

/-!
Verification development for the qstm terminal client.

The repository couples a PyQt terminal widget (src/ssh_manager/terminal.py)
with SSH/serial session handlers (src/ssh_manager/sessions.py).  The widget
delegates VT100 emulation to the external pyte library; everything the widget
itself does (per-chunk UTF-8 decoding, scroll-offset management, selection,
syntax highlighting, colour resolution, key translation) and everything in
sessions.py is embedded here directly from the source.  The pyte pieces
(stream decoder, screen, history ring, resize) are not part of the
repository, so they are modelled from the specification, as marked in the
doc comments of the corresponding definitions.
-/

namespace Qstm

/-! ### UTF-8 codec

`TerminalWidget._do_write_data` runs `data.decode("utf-8", errors="replace")`
on every chunk before feeding the text to the stream.  We embed that decoder
(Python semantics: a maximal valid prefix of a multi-byte sequence that
cannot be completed yields one U+FFFD and decoding resumes at the offending
byte; a truncated sequence at end of input yields one U+FFFD). -/

/-- The U+FFFD replacement character produced by errors="replace". -/
def replacementChar : Char := Char.ofNat 0xFFFD

/-- Is `b` a UTF-8 continuation byte (0x80..0xBF)? -/
def isCont (b : Nat) : Bool := 0x80 ≤ b && b < 0xC0

/-- Valid range for the second byte of a 3-byte sequence led by `b`. -/
def cont3Ok (b c : Nat) : Bool :=
  if b = 0xE0 then 0xA0 ≤ c && c < 0xC0
  else if b = 0xED then 0x80 ≤ c && c < 0xA0
  else isCont c

/-- Valid range for the second byte of a 4-byte sequence led by `b`. -/
def cont4Ok (b c : Nat) : Bool :=
  if b = 0xF0 then 0x90 ≤ c && c < 0xC0
  else if b = 0xF4 then 0x80 ≤ c && c < 0x90
  else isCont c

/-- One step of the UTF-8 decoder with fuel (the fuel is only a structural
termination measure; `utf8DecodeReplace` supplies enough for the whole
input, and every step consumes at least one byte). -/
def utf8DecodeGo : Nat → List Nat → List Char
  | 0, _ => []
  | _, [] => []
  | fuel + 1, b :: rest =>
    if b < 0x80 then Char.ofNat b :: utf8DecodeGo fuel rest
    else if b < 0xC2 then replacementChar :: utf8DecodeGo fuel rest
    else if b < 0xE0 then
      match rest with
      | [] => [replacementChar]
      | c :: rest2 =>
        if isCont c then
          Char.ofNat ((b - 0xC0) * 0x40 + (c - 0x80)) :: utf8DecodeGo fuel rest2
        else replacementChar :: utf8DecodeGo fuel (c :: rest2)
    else if b < 0xF0 then
      match rest with
      | [] => [replacementChar]
      | c :: rest2 =>
        if cont3Ok b c then
          match rest2 with
          | [] => [replacementChar]
          | d :: rest3 =>
            if isCont d then
              Char.ofNat ((b - 0xE0) * 0x1000 + (c - 0x80) * 0x40 + (d - 0x80)) ::
                utf8DecodeGo fuel rest3
            else replacementChar :: utf8DecodeGo fuel (d :: rest3)
        else replacementChar :: utf8DecodeGo fuel (c :: rest2)
    else if b < 0xF5 then
      match rest with
      | [] => [replacementChar]
      | c :: rest2 =>
        if cont4Ok b c then
          match rest2 with
          | [] => [replacementChar]
          | d :: rest3 =>
            if isCont d then
              match rest3 with
              | [] => [replacementChar]
              | e :: rest4 =>
                if isCont e then
                  Char.ofNat ((b - 0xF0) * 0x40000 + (c - 0x80) * 0x1000 +
                    (d - 0x80) * 0x40 + (e - 0x80)) :: utf8DecodeGo fuel rest4
                else replacementChar :: utf8DecodeGo fuel (e :: rest4)
            else replacementChar :: utf8DecodeGo fuel (d :: rest3)
        else replacementChar :: utf8DecodeGo fuel (c :: rest2)
    else replacementChar :: utf8DecodeGo fuel rest

/-- Python bytes.decode("utf-8", errors="replace") on a byte list. -/
def utf8DecodeReplace (l : List Nat) : List Char := utf8DecodeGo l.length l

/-- UTF-8 encoding of one code point (str.encode("utf-8") per character). -/
def utf8EncodeChar (c : Char) : List Nat :=
  let n := c.toNat
  if n < 0x80 then [n]
  else if n < 0x800 then [0xC0 + n / 0x40, 0x80 + n % 0x40]
  else if n < 0x10000 then
    [0xE0 + n / 0x1000, 0x80 + (n / 0x40) % 0x40, 0x80 + n % 0x40]
  else
    [0xF0 + n / 0x40000, 0x80 + (n / 0x1000) % 0x40,
     0x80 + (n / 0x40) % 0x40, 0x80 + n % 0x40]

/-- UTF-8 encoding of a string (str.encode("utf-8")). -/
def utf8Encode (s : String) : List Nat := s.data.flatMap utf8EncodeChar

/-! ### Screen State, History Ring and the Escape-Sequence Decoder

Modelled from the spec: the widget delegates these to the external pyte
library (`pyte.HistoryScreen`, `pyte.Stream`), which is not part of this
repository.  Spec 3 and 4.1-4.2 describe the data model (grid of attributed
cells, cursor, newline-mode flag, scroll-region bounds, bounded FIFO history
of rows evicted from the top on scroll) and the decoder contract (streaming
parser with parse state persisted across feed calls; printable text, cursor
movement, SGR, erase in line/display, scroll region, mode set/reset, wrap at
the column boundary, LF-vs-CR semantics governed by the newline mode;
malformed sequences dropped silently). -/

/-- One character cell: glyph plus display attributes (spec 3, Cell). -/
structure Cell where
  data : Char := ' '
  fg : String := "default"
  bg : String := "default"
  bold : Bool := false
  italics : Bool := false
  underscore : Bool := false
  strikethrough : Bool := false
  reverse : Bool := false
deriving DecidableEq, Repr

/-- Cursor position (column x, row y). -/
structure Cursor where
  x : Nat := 0
  y : Nat := 0
deriving DecidableEq, Repr

/-- The current SGR attributes of the emulation state. -/
structure Attrs where
  fg : String := "default"
  bg : String := "default"
  bold : Bool := false
  italics : Bool := false
  underscore : Bool := false
  strikethrough : Bool := false
  reverse : Bool := false
deriving DecidableEq, Repr

/-- Screen State: grid, cursor, newline mode, scroll region, and the History
Ring (bounded sequence of rows evicted from the top; capacity `histCap`).
The current SGR attributes are part of the mutable emulation state. -/
structure Screen where
  cols : Nat
  rows : Nat
  grid : List (List Cell)
  cursor : Cursor := {}
  lnm : Bool := false
  marginTop : Nat := 0
  marginBottom : Nat
  histCap : Nat
  history : List (List Cell) := []
  attrs : Attrs := {}
deriving DecidableEq, Repr

/-- A blank cell (default attributes). -/
def blankCell : Cell := {}

/-- A blank row of `cols` cells. -/
def blankRow (cols : Nat) : List Cell := List.replicate cols blankCell

/-- Append a row to the History Ring, dropping from the front so that the
ring never exceeds `cap` rows (strict FIFO eviction; spec 3, History Ring). -/
def pushHistory (cap : Nat) (r : List Cell) (h : List (List Cell)) :
    List (List Cell) :=
  let h2 := h ++ [r]
  h2.drop (h2.length - cap)

/-- Scroll the scroll region up one row.  When the region spans the whole
screen the evicted top row enters the History Ring (spec 4.2: output past
the bottom row evicts the top row into the History Ring and appends a blank
bottom row). -/
def scroll1 (s : Screen) : Screen :=
  let evicted := s.grid.getD s.marginTop (blankRow s.cols)
  let newGrid :=
    s.grid.take s.marginTop ++
    (s.grid.drop (s.marginTop + 1)).take (s.marginBottom - s.marginTop) ++
    [blankRow s.cols] ++ s.grid.drop (s.marginBottom + 1)
  let newHist :=
    if s.marginTop = 0 ∧ s.marginBottom = s.rows - 1 then
      pushHistory s.histCap evicted s.history
    else s.history
  { s with grid := newGrid, history := newHist }

/-- Line feed: scroll when the cursor sits on the bottom margin, otherwise
move the cursor down one row (clamped to the screen). -/
def linefeed (s : Screen) : Screen :=
  if s.cursor.y = s.marginBottom then scroll1 s
  else { s with cursor := { s.cursor with y := min (s.cursor.y + 1) (s.rows - 1) } }

/-- LF control character: line feed, plus carriage return when the newline
mode flag is set (spec 4.1, newline-vs-carriage-return semantics). -/
def doLF (s : Screen) : Screen :=
  let s2 := linefeed s
  if s2.lnm then { s2 with cursor := { s2.cursor with x := 0 } } else s2

/-- CR control character: column 0. -/
def doCR (s : Screen) : Screen :=
  { s with cursor := { s.cursor with x := 0 } }

/-- Backspace: one column left, clamped at 0. -/
def doBackspace (s : Screen) : Screen :=
  { s with cursor := { s.cursor with x := s.cursor.x - 1 } }

/-- A cell carrying the current SGR attributes and glyph `ch`. -/
def curCell (s : Screen) (ch : Char) : Cell :=
  { data := ch, fg := s.attrs.fg, bg := s.attrs.bg, bold := s.attrs.bold,
    italics := s.attrs.italics, underscore := s.attrs.underscore,
    strikethrough := s.attrs.strikethrough, reverse := s.attrs.reverse }

/-- Overwrite the cell at row `y`, column `x` (out-of-range writes are
dropped). -/
def setGridCell (s : Screen) (y x : Nat) (c : Cell) : Screen :=
  { s with grid :=
      match s.grid.get? y with
      | some row => s.grid.set y (row.set x c)
      | none => s.grid }

/-- Print one character: wrap at the column boundary (spec 4.1), write the
attributed cell at the cursor, advance the cursor. -/
def writeChar (s : Screen) (ch : Char) : Screen :=
  let s1 :=
    if s.cols ≤ s.cursor.x then
      let s2 := linefeed s
      { s2 with cursor := { s2.cursor with x := 0 } }
    else s
  let s3 := setGridCell s1 s1.cursor.y s1.cursor.x (curCell s1 ch)
  { s3 with cursor := { s3.cursor with x := s3.cursor.x + 1 } }

/-- Blank the cells of a row whose index lies in [a, b). -/
def eraseRowSeg (a b : Nat) (row : List Cell) : List Cell :=
  row.mapIdx fun i c => if a ≤ i ∧ i < b then blankCell else c

/-- The grid after erase in line (CSI K): 0 = cursor to end, 1 = start
through cursor, 2 = whole line. -/
def eraseLineGrid (s : Screen) (p : Nat) : List (List Cell) :=
  match s.grid.get? s.cursor.y with
  | none => s.grid
  | some row =>
    let row2 :=
      if p = 0 then eraseRowSeg s.cursor.x s.cols row
      else if p = 1 then eraseRowSeg 0 (s.cursor.x + 1) row
      else if p = 2 then blankRow s.cols
      else row
    s.grid.set s.cursor.y row2

/-- Erase in line (CSI K). -/
def eraseInLine (s : Screen) (p : Nat) : Screen :=
  { s with grid := eraseLineGrid s p }

/-- The grid after erase in display (CSI J): 0 = cursor to end of screen,
1 = start of screen through cursor, 2 = whole screen. -/
def eraseDisplayGrid (s : Screen) (p : Nat) : List (List Cell) :=
  if p = 0 then
    (eraseLineGrid s 0).mapIdx fun y row =>
      if s.cursor.y < y then blankRow s.cols else row
  else if p = 1 then
    (eraseLineGrid s 1).mapIdx fun y row =>
      if y < s.cursor.y then blankRow s.cols else row
  else if p = 2 then List.replicate s.rows (blankRow s.cols)
  else s.grid

/-- Erase in display (CSI J). -/
def eraseInDisplay (s : Screen) (p : Nat) : Screen :=
  { s with grid := eraseDisplayGrid s p }

/-- Basic ANSI colour names in SGR order. -/
def colorName (n : Nat) : String :=
  ["black", "red", "green", "yellow", "blue", "magenta", "cyan",
   "white"].getD n "default"

/-- Apply a single SGR parameter to the current attributes. -/
def sgr1 (a : Attrs) (p : Nat) : Attrs :=
  if p = 0 then {}
  else if p = 1 then { a with bold := true }
  else if p = 3 then { a with italics := true }
  else if p = 4 then { a with underscore := true }
  else if p = 7 then { a with reverse := true }
  else if p = 9 then { a with strikethrough := true }
  else if p = 22 then { a with bold := false }
  else if p = 23 then { a with italics := false }
  else if p = 24 then { a with underscore := false }
  else if p = 27 then { a with reverse := false }
  else if p = 29 then { a with strikethrough := false }
  else if 30 ≤ p ∧ p ≤ 37 then { a with fg := colorName (p - 30) }
  else if p = 39 then { a with fg := "default" }
  else if 40 ≤ p ∧ p ≤ 47 then { a with bg := colorName (p - 40) }
  else if p = 49 then { a with bg := "default" }
  else a

/-- Split a CSI parameter buffer at semicolons. -/
def paramGroups (ps : List Char) : List (List Char) :=
  ps.foldr
    (fun c acc =>
      if c = ';' then [] :: acc
      else match acc with
        | g :: gs => (c :: g) :: gs
        | [] => [[c]])
    [[]]

/-- Decimal value of a digit group (empty group means 0). -/
def digitsToNat (g : List Char) : Nat :=
  g.foldl (fun a c => a * 10 + (c.toNat - 48)) 0

/-- Numeric CSI parameters (the private marker is stripped first). -/
def csiParams (ps : List Char) : List Nat :=
  (paramGroups (ps.filter fun c => c ≠ '?')).map digitsToNat

/-- Set the scroll region (CSI r); homes the cursor; ignored when the
requested region is empty. -/
def setMargins (s : Screen) (p1 p2 : Nat) : Screen :=
  let top := max p1 1 - 1
  let bottom := if p2 = 0 then s.rows - 1 else min (p2 - 1) (s.rows - 1)
  if top < bottom then
    { s with marginTop := top, marginBottom := bottom, cursor := {} }
  else s

/-- Reset (spec 4.2): blank grid, history cleared, cursor home, modes and
attributes default. -/
def resetScreen (s : Screen) : Screen :=
  { cols := s.cols, rows := s.rows,
    grid := List.replicate s.rows (blankRow s.cols),
    marginBottom := s.rows - 1, histCap := s.histCap }

/-- The CSI commands the model interprets. -/
inductive CsiOp
  | cursorUp
  | cursorDown
  | cursorFwd
  | cursorBack
  | cursorPos
  | eraseDisp
  | eraseLine
  | sgrOp
  | marginsOp
  | setModeOp
  | resetModeOp
  | unknown
deriving DecidableEq, Repr

/-- Classify a CSI final byte (the elif chain of the dispatcher). -/
def classifyCsi (final : Char) : CsiOp :=
  if final = 'A' then .cursorUp
  else if final = 'B' then .cursorDown
  else if final = 'C' then .cursorFwd
  else if final = 'D' then .cursorBack
  else if final = 'H' ∨ final = 'f' then .cursorPos
  else if final = 'J' then .eraseDisp
  else if final = 'K' then .eraseLine
  else if final = 'm' then .sgrOp
  else if final = 'r' then .marginsOp
  else if final = 'h' then .setModeOp
  else if final = 'l' then .resetModeOp
  else .unknown

/-- Dispatch one complete CSI sequence (final byte plus parameter buffer).
Unrecognized sequences are dropped silently (spec 4.1). -/
def csiDispatch (s : Screen) (ps : List Char) (final : Char) : Screen :=
  let prv := ps.contains '?'
  let params := csiParams ps
  let p1 := params.getD 0 0
  let p2 := params.getD 1 0
  match classifyCsi final with
  | .cursorUp => { s with cursor := { s.cursor with y := s.cursor.y - max p1 1 } }
  | .cursorDown => { s with cursor := { s.cursor with y := min (s.cursor.y + max p1 1) (s.rows - 1) } }
  | .cursorFwd => { s with cursor := { s.cursor with x := min (s.cursor.x + max p1 1) (s.cols - 1) } }
  | .cursorBack => { s with cursor := { s.cursor with x := s.cursor.x - max p1 1 } }
  | .cursorPos => { s with cursor := ⟨min (max p2 1 - 1) (s.cols - 1), min (max p1 1 - 1) (s.rows - 1)⟩ }
  | .eraseDisp => eraseInDisplay s p1
  | .eraseLine => eraseInLine s p1
  | .sgrOp => { s with attrs := (if params.isEmpty then [0] else params).foldl sgr1 s.attrs }
  | .marginsOp => setMargins s p1 p2
  | .setModeOp => if ¬prv ∧ params.contains 20 then { s with lnm := true } else s
  | .resetModeOp => if ¬prv ∧ params.contains 20 then { s with lnm := false } else s
  | .unknown => s

/-- Parse state of the streaming decoder, persisted across feed calls. -/
inductive PState
  | ground
  | esc
  | csi (params : List Char)
deriving DecidableEq, Repr

/-- The Decoder together with the Screen State it mutates. -/
structure Emu where
  screen : Screen
  pstate : PState := .ground
deriving DecidableEq, Repr

/-- CSI parameter bytes accepted by the model. -/
def isCsiParamChar (c : Char) : Bool :=
  ('0' ≤ c && c ≤ '9') || c = ';' || c = '?'

/-- CSI final bytes. -/
def isCsiFinal (c : Char) : Bool := '@' ≤ c && c ≤ '~'

/-- How the ground state treats an incoming character. -/
inductive GroundOp
  | escStart
  | crOp
  | lfOp
  | bsOp
  | ignore
  | printable
deriving DecidableEq, Repr

/-- Classify a character arriving in the ground state. -/
def classifyGround (c : Char) : GroundOp :=
  if c = Char.ofNat 0x1B then .escStart
  else if c = Char.ofNat 0x0D then .crOp
  else if c = Char.ofNat 0x0A then .lfOp
  else if c = Char.ofNat 0x08 then .bsOp
  else if c.toNat < 0x20 then .ignore
  else .printable

/-- How the escape state treats an incoming character. -/
inductive EscOp
  | csiStart
  | resetOp
  | dropOp
deriving DecidableEq, Repr

/-- Classify a character arriving right after ESC. -/
def classifyEsc (c : Char) : EscOp :=
  if c = '[' then .csiStart
  else if c = 'c' then .resetOp
  else .dropOp

/-- How the CSI-collect state treats an incoming character. -/
inductive CsiCharOp
  | param
  | finalByte
  | malformed
deriving DecidableEq, Repr

/-- Classify a character arriving while collecting a CSI sequence. -/
def classifyCsiChar (c : Char) : CsiCharOp :=
  if isCsiParamChar c then .param
  else if isCsiFinal c then .finalByte
  else .malformed

/-- One decoder step: consume a single character of decoded text. -/
def stepChar (e : Emu) (c : Char) : Emu :=
  match e.pstate with
  | .ground =>
    match classifyGround c with
    | .escStart => { e with pstate := .esc }
    | .crOp => { e with screen := doCR e.screen }
    | .lfOp => { e with screen := doLF e.screen }
    | .bsOp => { e with screen := doBackspace e.screen }
    | .ignore => e
    | .printable => { e with screen := writeChar e.screen c }
  | .esc =>
    match classifyEsc c with
    | .csiStart => { e with pstate := .csi [] }
    | .resetOp => { e with screen := resetScreen e.screen, pstate := .ground }
    | .dropOp => { e with pstate := .ground }
  | .csi ps =>
    match classifyCsiChar c with
    | .param => { e with pstate := .csi (ps ++ [c]) }
    | .finalByte => { e with screen := csiDispatch e.screen ps c, pstate := .ground }
    | .malformed => { e with pstate := .ground }

/-- Feed decoded text to the Decoder (pyte Stream.feed); parse state is
persisted across calls because it lives in `Emu`. -/
def feedChars (e : Emu) (cs : List Char) : Emu := cs.foldl stepChar e

/-- A fresh Screen State of the given geometry. -/
def initScreen (cols rows cap : Nat) : Screen :=
  { cols := cols, rows := rows,
    grid := List.replicate rows (blankRow cols),
    marginBottom := rows - 1, histCap := cap }

/-- The widget state at construction: 80x24 screen, history capacity 10000,
LNM newline mode set (TerminalWidget.__init__). -/
def initEmu : Emu :=
  { screen := { initScreen 80 24 10000 with lnm := true } }

/-- TerminalWidget._do_write_data, decoder part: decode the chunk with
errors="replace" and feed the resulting text to the stream. -/
def do_write_data (e : Emu) (data : List Nat) : Emu :=
  feedChars e (utf8DecodeReplace data)

/-- The screen used by the C2 eviction statement: a full 10000-row History
Ring with the cursor on the bottom margin of a full-screen scroll region. -/
def fullHistScreen : Screen :=
  { initScreen 80 24 10000 with
    history := List.replicate 10000 (blankRow 80),
    cursor := ⟨0, 23⟩ }

/-! ### Widget-level state: scroll offset, selection, clearing

These embed TerminalWidget methods from src/ssh_manager/terminal.py
directly: `_do_write_data` (scroll snap), `_scroll_up`, `_scroll_down`,
`clear_terminal`, `clear_selection`. -/

/-- The widget state around the emulator: scroll offset and mouse
selection endpoints ((col, row) pairs or None). -/
structure Widget where
  emu : Emu
  scroll_offset : Nat := 0
  selection_start : Option (Nat × Nat) := none
  selection_end : Option (Nat × Nat) := none
deriving DecidableEq, Repr

/-- The widget at construction time (TerminalWidget.__init__). -/
def initWidget : Widget := { emu := initEmu }

/-- TerminalWidget._do_write_data: feed the chunk, then snap the view back
to the live bottom by resetting the scroll offset to 0. -/
def widget_write_data (w : Widget) (data : List Nat) : Widget :=
  { w with emu := do_write_data w.emu data, scroll_offset := 0 }

/-- TerminalWidget._scroll_up: the offset grows by `lines` but is clamped to
the number of rows currently in history. -/
def widget_scroll_up (w : Widget) (lines : Nat) : Widget :=
  { w with scroll_offset := min (w.scroll_offset + lines) w.emu.screen.history.length }

/-- TerminalWidget._scroll_down: the offset shrinks by `lines`, clamped at
0 (Nat subtraction). -/
def widget_scroll_down (w : Widget) (lines : Nat) : Widget :=
  { w with scroll_offset := w.scroll_offset - lines }

/-- TerminalWidget.clear_terminal: resets the screen (which clears the
History Ring, spec 4.2) but leaves the scroll offset untouched. -/
def widget_clear_terminal (w : Widget) : Widget :=
  { w with emu := { w.emu with screen := resetScreen w.emu.screen } }

/-- The scroll-offset invariant of claim C9: the offset never exceeds the
number of rows held in history (the lower bound 0 is inherent in Nat). -/
def scrollInvariant (w : Widget) : Prop :=
  w.scroll_offset ≤ w.emu.screen.history.length

instance (w : Widget) : Decidable (scrollInvariant w) := by
  unfold scrollInvariant; infer_instance

/-! ### Sessions (src/ssh_manager/sessions.py)

`SSHSession.connect` performs its argument checks before ever touching the
network; the code after `client.connect(...)` is abstracted by a
`NetOutcome` parameter (the except clauses of the source determine the error
string for each outcome).  The reader loops of both transports are the same
polling loop over an abstract sequence of iterations. -/

/-- The connection parameters `connect` reads from its config dict, with the
dict-lookup defaults of the source. -/
structure SSHConfig where
  host : String := ""
  port : Nat := 22
  username : String := ""
  password : String := ""
  key_file : String := ""
  ciphers : String := ""
  kex : String := ""
  hostkeys : String := ""
  macs : String := ""
deriving DecidableEq, Repr

/-- Possible outcomes of the network phase (paramiko connect and
invoke_shell), one per except clause of SSHSession.connect. -/
inductive NetOutcome
  | ok
  | authFail
  | sshErr (m : String)
  | timeout
  | dnsErr (m : String)
  | refused
  | osErr (m : String)
  | other (m : String)
deriving DecidableEq, Repr

/-- What a call to connect did: its boolean return value, the error strings
delivered to the error callback in order, and whether network input/output
was attempted (whether control reached `client.connect`). -/
structure ConnectResult where
  ret : Bool
  errors : List String
  networkAttempted : Bool
deriving DecidableEq, Repr

/-- SSHSession.connect: the pre-network checks in source order (host,
username, then password-or-existing-key-file), then the network phase.
`keyFileExists` stands for `os.path.exists(key_file)`. -/
def sshConnect (cfg : SSHConfig) (keyFileExists : Bool) (net : NetOutcome) :
    ConnectResult :=
  if cfg.host = "" then
    { ret := false, errors := ["Host is not specified"], networkAttempted := false }
  else if cfg.username = "" then
    { ret := false, errors := ["Username is not specified"], networkAttempted := false }
  else if cfg.password = "" ∧ ¬(cfg.key_file ≠ "" ∧ keyFileExists) then
    { ret := false, errors := ["No password or key file specified"], networkAttempted := false }
  else
    match net with
    | .ok => { ret := true, errors := [], networkAttempted := true }
    | .authFail =>
      { ret := false, errors := ["Authentication failed - check username/password"], networkAttempted := true }
    | .sshErr m =>
      { ret := false, errors := ["SSH error: " ++ m], networkAttempted := true }
    | .timeout =>
      { ret := false, errors := ["Connection timed out - host unreachable"], networkAttempted := true }
    | .dnsErr m =>
      { ret := false, errors := ["DNS error - cannot resolve hostname: " ++ m], networkAttempted := true }
    | .refused =>
      { ret := false, errors := ["Connection refused - check host and port"], networkAttempted := true }
    | .osErr m =>
      { ret := false, errors := ["Network error: " ++ m], networkAttempted := true }
    | .other m =>
      { ret := false, errors := ["Connection failed: " ++ m], networkAttempted := true }

/-- One iteration of a reader loop as the loop observes it:
the running/handle test at the top of the while, what the body read
(`ok none` = nothing ready, `ok (some d)` = a chunk, `err` = the read
raised), and the value of the running flag at the moment the except clause
tests it (disconnect may clear it mid-iteration). -/
inductive ReadOutcome
  | ok (d : Option (List Nat))
  | err
deriving DecidableEq, Repr

/-- One reader-loop iteration. -/
structure ReadIter where
  runningAtCheck : Bool
  outcome : ReadOutcome
  runningAtHandler : Bool
deriving DecidableEq, Repr

/-- The reader loop shared by SSHSession._read_loop and
SerialSession._read_loop (they differ only in the transport handle the trace
abstracts): returns the chunks delivered to the data callback and the number
of error-callback invocations. -/
def read_loop : List ReadIter → List (List Nat) × Nat
  | [] => ([], 0)
  | it :: rest =>
    if it.runningAtCheck then
      match it.outcome with
      | .ok d =>
        let r := read_loop rest
        (match d with
         | some x => x :: r.1
         | none => r.1, r.2)
      | .err => ([], if it.runningAtHandler then 1 else 0)
    else ([], 0)

/-! ### Selection Model (TerminalWidget._get_selected_text)

Embedded from the source: normalize the endpoint pair, slice boundary rows,
take middle rows whole, right-strip each row and join with newlines.  A
buffer row is the list of its cell texts (`Char.data` strings; an empty cell
text renders as a space, `_get_line_text`). -/

/-- Selection normalization: swap so that the start is not after the end in
(row, column) order.  Endpoints are (col, row) pairs. -/
def normSel (s e : Nat × Nat) : (Nat × Nat) × (Nat × Nat) :=
  if s.2 > e.2 ∨ (s.2 = e.2 ∧ s.1 > e.1) then (e, s) else (s, e)

/-- TerminalWidget._get_line_text: the first `cols` cell texts of a row,
with empty cell text rendered as a space, concatenated. -/
def get_line_text (cols : Nat) (line : List String) : List Char :=
  (String.join ((line.take cols).map fun c => if c = "" then " " else c)).data

/-- Python str.rstrip restricted to ASCII whitespace (all that terminal
cells can hold). -/
def isPySpace (c : Char) : Bool :=
  c = ' ' || c = Char.ofNat 9 || c = Char.ofNat 10 || c = Char.ofNat 11 ||
  c = Char.ofNat 12 || c = Char.ofNat 13

/-- Right-strip trailing whitespace. -/
def rstrip (l : List Char) : List Char :=
  (l.reverse.dropWhile isPySpace).reverse

/-- The selected slice contributed by one row of the selection range. -/
def sliceRow (lt : List Char) (row sr sc er ec : Nat) : List Char :=
  if row = sr ∧ row = er then (lt.take ec).drop sc
  else if row = sr then lt.drop sc
  else if row = er then lt.take ec
  else lt

/-- The text of a normalized, non-empty selection. -/
def resolveNorm (cols : Nat) (buffer : List (List String))
    (st en : Nat × Nat) : String :=
  if st = en then ""
  else
    let lines := (List.range (en.2 + 1 - st.2)).filterMap fun k =>
      let row := st.2 + k
      if row < buffer.length then
        some (sliceRow (get_line_text cols (buffer.getD row [])) row st.2 st.1 en.2 en.1)
      else none
    String.intercalate "\n" (lines.map fun l => String.mk (rstrip l))

/-- TerminalWidget._get_selected_text: empty without both endpoints,
otherwise normalize and resolve. -/
def get_selected_text (cols : Nat) (buffer : List (List String))
    (selStart selEnd : Option (Nat × Nat)) : String :=
  match selStart, selEnd with
  | some s, some e =>
    let p := normSel s e
    resolveNorm cols buffer p.1 p.2
  | _, _ => ""

/-! ### Terminal colours (TerminalColors.get_color) -/

/-- A Python value passed to TerminalColors.get_color: None, a string
(colour name, "default" or a hex literal), or an integer colour code. -/
inductive PyColorCode
  | pynone
  | pystr (s : String)
  | pyint (n : Nat)
deriving DecidableEq, Repr

/-- TerminalColors.PALETTE. -/
def PALETTE : List String :=
  ["#000000", "#cd0000", "#00cd00", "#cdcd00",
   "#0000ee", "#cd00cd", "#00cdcd", "#e5e5e5",
   "#7f7f7f", "#ff0000", "#00ff00", "#ffff00",
   "#5c5cff", "#ff00ff", "#00ffff", "#ffffff"]

/-- TerminalColors.DEFAULT_FG. -/
def DEFAULT_FG : String := "#cdd6f4"

/-- Lower-case hexadecimal digit. -/
def hexDigit (n : Nat) : Char :=
  "0123456789abcdef".data.getD n '0'

/-- Python %02x formatting: at least two lower-case hex digits. -/
def toHex2 (n : Nat) : String :=
  let rec go (fuel v : Nat) (acc : List Char) : List Char :=
    match fuel with
    | 0 => acc
    | fuel + 1 => if v = 0 then acc else go fuel (v / 16) (hexDigit (v % 16) :: acc)
  let ds := go n n []
  String.mk (if ds.length = 0 then ['0', '0'] else if ds.length = 1 then '0' :: ds else ds)

/-- ASCII lower-casing (str.lower on the ASCII names involved). -/
def asciiLower (c : Char) : Char :=
  if 'A' ≤ c ∧ c ≤ 'Z' then Char.ofNat (c.toNat + 32) else c

/-- code.lower().replace("_", "").replace("-", "") from get_color. -/
def normalizeColorName (s : String) : String :=
  String.mk ((s.data.map asciiLower).filter fun c => c ≠ '_' ∧ c ≠ '-')

/-- The name_map dict of get_color, with its .get default of 7. -/
def colorNameCode (s : String) : Nat :=
  if s = "black" then 0 else if s = "red" then 1
  else if s = "green" then 2 else if s = "yellow" then 3
  else if s = "blue" then 4 else if s = "magenta" then 5
  else if s = "cyan" then 6 else if s = "white" then 7
  else if s = "brightblack" then 8 else if s = "brightred" then 9
  else if s = "brightgreen" then 10 else if s = "brightyellow" then 11
  else if s = "brightblue" then 12 else if s = "brightmagenta" then 13
  else if s = "brightcyan" then 14 else if s = "brightwhite" then 15
  else 7

/-- The integer branch of get_color: palette, 6x6x6 cube, grayscale ramp. -/
def intColor (n : Nat) : String :=
  if n < 16 then PALETTE.getD n DEFAULT_FG
  else if n < 232 then
    let m := n - 16
    "#" ++ toHex2 (m / 36 * 51) ++ toHex2 (m / 6 % 6 * 51) ++ toHex2 (m % 6 * 51)
  else
    let g := (n - 232) * 10 + 8
    "#" ++ toHex2 g ++ toHex2 g ++ toHex2 g

/-- TerminalColors.get_color: None for None or "default" (no explicit
colour), hex strings pass through, names map through name_map and then the
integer branch, integers go straight to the integer branch. -/
def get_color : PyColorCode → Option String
  | .pynone => none
  | .pystr s =>
    if s = "default" then none
    else if s.startsWith "#" then some s
    else some (intColor (colorNameCode (normalizeColorName s)))
  | .pyint n => some (intColor n)

/-- First binding of a column in the syntax-colour dict. -/
def lookupColor (m : List (Nat × String)) (i : Nat) : Option String :=
  (m.find? fun p => p.1 = i).map Prod.snd

/-- The foreground-resolution lines of paintEvent: the terminal colour of
the cell if it has one, else the syntax-overlay colour of the column if
present, else the default foreground setting. -/
def effectiveFg (fgName : PyColorCode) (m : List (Nat × String)) (col : Nat)
    (defaultFg : String) : String :=
  let fg := get_color fgName
  let fg2 :=
    match fg with
    | none =>
      match lookupColor m col with
      | some c => some c
      | none => none
    | some c => some c
  match fg2 with
  | some c => c
  | none => defaultFg

/-- The claim C6 priority order, written as the spec states it. -/
def effectiveFgSpec (fgName : PyColorCode) (m : List (Nat × String))
    (col : Nat) (defaultFg : String) : String :=
  match get_color fgName with
  | some c => c
  | none =>
    match lookupColor m col with
    | some c => c
    | none => defaultFg

/-! ### Syntax highlighting (SYNTAX_RULES, _get_syntax_colors)

The source compiles each category word list into a case-insensitive regex
of whole-word alternatives and scans with finditer.  We embed the regex
semantics directly: scanning left to right, a match starts at a word
boundary, takes the first alternative (in list order) that matches
case-insensitively and ends at a word boundary, and scanning resumes after
the match.  All listed words begin and end with regex word characters, so a
boundary test reduces to the word-character test on the neighbouring
character. -/

/-- A syntax-rule category: its colour and word list. -/
structure SynCategory where
  color : String
  words : List String
deriving DecidableEq, Repr

/-- SYNTAX_RULES in dict insertion order (keyword, network, interface,
status, protocol) with the exact word lists of the source. -/
def SYNTAX_RULES : List SynCategory :=
  [{ color := "#89b4fa",
     words := ["show", "display", "configure", "config", "terminal", "interface",
       "router", "switch", "vlan", "spanning-tree", "stp",
       "enable", "disable", "shutdown", "no", "exit", "end", "quit",
       "write", "copy", "save", "commit", "rollback",
       "ping", "traceroute", "tracert", "telnet", "ssh",
       "debug", "undebug", "logging", "terminal", "length", "width"] },
   { color := "#a6e3a1",
     words := ["ip", "ipv6", "address", "route", "routing", "static",
       "ospf", "eigrp", "bgp", "rip", "isis", "mpls", "vpn", "vrf",
       "acl", "access-list", "prefix-list", "route-map",
       "nat", "pat", "dhcp", "dns", "ntp", "snmp", "syslog",
       "arp", "mac", "mac-address", "neighbor", "adjacency",
       "network", "area", "subnet", "mask", "gateway", "default"] },
   { color := "#f9e2af",
     words := ["ethernet", "fastethernet", "gigabitethernet", "tengigabitethernet",
       "fa", "gi", "te", "eth", "ge", "xe", "fe",
       "serial", "loopback", "tunnel", "vlanif", "port-channel",
       "bridge-aggregation", "eth-trunk", "bundle",
       "management", "mgmt", "console", "aux", "vty"] },
   { color := "#f38ba8",
     words := ["up", "down", "administratively", "err-disabled",
       "connected", "notconnect", "disabled", "blocked", "forwarding",
       "established", "active", "passive", "idle", "full", "half",
       "error", "errors", "drops", "discards", "collision"] },
   { color := "#cba6f7",
     words := ["tcp", "udp", "icmp", "http", "https", "ftp", "tftp",
       "smtp", "pop3", "imap", "ldap", "radius", "tacacs",
       "dot1q", "802.1q", "lacp", "pagp", "lldp", "cdp",
       "stp", "rstp", "mstp", "pvst", "hsrp", "vrrp", "glbp"] }]

/-- IP_COLOR. -/
def IP_COLOR : String := "#94e2d5"

/-- Regex word character (ASCII): letters, digits, underscore. -/
def isWordChar (c : Char) : Bool :=
  ('a' ≤ c && c ≤ 'z') || ('A' ≤ c && c ≤ 'Z') || ('0' ≤ c && c ≤ '9') || c = '_'

/-- ASCII digit. -/
def isDigitChar (c : Char) : Bool := '0' ≤ c && c ≤ '9'

/-- Case-insensitive match of word `w` at position `i`. -/
def matchesAt (s : List Char) (i : Nat) (w : List Char) : Bool :=
  ((s.drop i).take w.length).map asciiLower == w.map asciiLower

/-- First alternative (in list order) matching at `i` with a word boundary
after it; returns the match length. -/
def firstWordMatch (words : List String) (s : List Char) (i : Nat) : Option Nat :=
  words.findSome? fun w =>
    let wc := w.data
    if matchesAt s i wc && ¬isWordChar (s.getD (i + wc.length) ' ') then
      some wc.length
    else none

/-- Length of the digit run starting at `i`. -/
def digitRun (s : List Char) (i : Nat) : Nat :=
  ((s.drop i).takeWhile isDigitChar).length

/-- One octet of the IP pattern followed by a literal dot; by the
backtracking of d-1-3 against the following literal, this matches exactly
when the digit run has length 1..3 and a dot follows; returns the position
after the dot. -/
def octetDot (s : List Char) (j : Nat) : Option Nat :=
  let r := digitRun s j
  if 1 ≤ r ∧ r ≤ 3 ∧ s.getD (j + r) ' ' = '.' then some (j + r + 1) else none

/-- The final octet with the optional /0-99 suffix and the trailing word
boundary; returns the end position. -/
def lastOctet (s : List Char) (j : Nat) : Option Nat :=
  let r := digitRun s j
  if 1 ≤ r ∧ r ≤ 3 then
    let jEnd := j + r
    let withSlash :=
      if s.getD jEnd ' ' = '/' then
        let r2 := digitRun s (jEnd + 1)
        if 1 ≤ r2 ∧ r2 ≤ 2 ∧ ¬isWordChar (s.getD (jEnd + 1 + r2) ' ') then
          some (jEnd + 1 + r2)
        else none
      else none
    match withSlash with
    | some e => some e
    | none => if ¬isWordChar (s.getD jEnd ' ') then some jEnd else none
  else none

/-- IP_PATTERN matched at position `i`; returns the match length. -/
def matchIpAt (s : List Char) (i : Nat) : Option Nat :=
  (octetDot s i).bind fun j1 =>
    (octetDot s j1).bind fun j2 =>
      (octetDot s j2).bind fun j3 =>
        (lastOctet s j3).map fun e => e - i

/-- finditer: scan left to right from `i`, matching only at word
boundaries, resuming after each match; `fuel` bounds the recursion. -/
def scanGo (m : List Char → Nat → Option Nat) (s : List Char) :
    Nat → Nat → List (Nat × Nat)
  | 0, _ => []
  | fuel + 1, i =>
    if s.length ≤ i then []
    else if i = 0 ∨ ¬isWordChar (s.getD (i - 1) ' ') then
      match m s i with
      | some len => (i, i + len) :: scanGo m s fuel (i + len)
      | none => scanGo m s fuel (i + 1)
    else scanGo m s fuel (i + 1)

/-- All matches of a category word list in a line. -/
def scanWords (words : List String) (s : List Char) : List (Nat × Nat) :=
  scanGo (firstWordMatch words) s (s.length + 1) 0

/-- All IP_PATTERN matches in a line. -/
def scanIp (s : List Char) : List (Nat × Nat) :=
  scanGo matchIpAt s (s.length + 1) 0

/-- Python dict membership for the colour map. -/
def dictContains (m : List (Nat × String)) (i : Nat) : Bool :=
  m.any fun p => p.1 = i

/-- Python dict assignment colors[i] = c. -/
def dictSet (m : List (Nat × String)) (i : Nat) (c : String) :
    List (Nat × String) :=
  if dictContains m i then m.map fun p => if p.1 = i then (i, c) else p
  else m ++ [(i, c)]

/-- The guarded assignment of the category loop: only when `i` is absent
(IP colours are never overridden). -/
def dictSetIfAbsent (m : List (Nat × String)) (i : Nat) (c : String) :
    List (Nat × String) :=
  if dictContains m i then m else m ++ [(i, c)]

/-- The column positions a match covers. -/
def matchCols (se : Nat × Nat) : List Nat :=
  (List.range (se.2 - se.1)).map (se.1 + ·)

/-- TerminalWidget._get_syntax_colors: empty when highlighting is disabled;
otherwise IP matches colour their columns first, then each category in
order colours still-uncoloured columns. -/
def get_syntax_colors (syntaxHighlight : Bool) (lineText : List Char) :
    List (Nat × String) :=
  if ¬syntaxHighlight then []
  else
    let withIp := (scanIp lineText).foldl
      (fun m se => (matchCols se).foldl (fun m i => dictSet m i IP_COLOR) m) []
    SYNTAX_RULES.foldl
      (fun m cat => (scanWords cat.words lineText).foldl
        (fun m se => (matchCols se).foldl
          (fun m i => dictSetIfAbsent m i cat.color) m) m)
      withIp

/-! ### Resize (spec 4.2) and the resize-path of the widget

Modelled from the spec: screen.resize is pyte.  Spec 4.2: resize clamps the
cursor into the new bounds; shrink truncates rows and columns rather than
re-wrapping; growth pads with blank cells. -/

/-- Truncate or blank-pad a row to `cols` cells. -/
def resizeRow (cols : Nat) (row : List Cell) : List Cell :=
  row.take cols ++ List.replicate (cols - row.length) blankCell

/-- Modelled from the spec: screen.resize(rows, cols).  Truncates or pads
the grid, clamps the cursor, resets the scroll region to the full screen. -/
def screenResize (s : Screen) (rows cols : Nat) : Screen :=
  { s with
    rows := rows, cols := cols,
    grid := (s.grid.map (resizeRow cols)).take rows ++ List.replicate (rows - s.grid.length) (blankRow cols),
    cursor := ⟨min s.cursor.x (cols - 1), min s.cursor.y (rows - 1)⟩,
    marginTop := 0, marginBottom := rows - 1 }

/-- Resize at the emulator level (the parse state is untouched). -/
def emuResize (e : Emu) (rows cols : Nat) : Emu :=
  { e with screen := screenResize e.screen rows cols }

/-- Feed a list of text lines, each terminated CR LF. -/
def feedLines (e : Emu) (ls : List String) : Emu :=
  ls.foldl (fun e l => do_write_data e (utf8Encode (l ++ String.mk [Char.ofNat 13, Char.ofNat 10]))) e

/-- The visible buffer at scroll offset 0 (the live grid). -/
def visibleBuffer (e : Emu) : List (List Cell) := e.screen.grid

/-! ### Key handling (TerminalWidget.keyPressEvent) -/

/-- Qt modifier masks. -/
def qShift : Nat := 0x02000000

/-- Qt Control modifier. -/
def qControl : Nat := 0x04000000

/-- Qt Alt modifier. -/
def qAlt : Nat := 0x08000000

/-- Key event as keyPressEvent reads it: key code, modifier mask, text. -/
structure KeyEvent where
  key : Nat
  modifiers : Nat
  text : String
deriving DecidableEq, Repr

/-- Qt key codes used by keyPressEvent. -/
def keyEscape : Nat := 0x01000000

/-- Qt.Key_Tab. -/
def keyTab : Nat := 0x01000001

/-- Qt.Key_Backtab. -/
def keyBacktab : Nat := 0x01000002

/-- Qt.Key_Backspace. -/
def keyBackspace : Nat := 0x01000003

/-- Qt.Key_Return. -/
def keyReturn : Nat := 0x01000004

/-- Qt.Key_Enter. -/
def keyEnter : Nat := 0x01000005

/-- Qt.Key_Insert. -/
def keyInsert : Nat := 0x01000006

/-- Qt.Key_Delete. -/
def keyDelete : Nat := 0x01000007

/-- Qt.Key_Home. -/
def keyHome : Nat := 0x01000010

/-- Qt.Key_End. -/
def keyEnd : Nat := 0x01000011

/-- Qt.Key_Left. -/
def keyLeft : Nat := 0x01000012

/-- Qt.Key_Up. -/
def keyUp : Nat := 0x01000013

/-- Qt.Key_Right. -/
def keyRight : Nat := 0x01000014

/-- Qt.Key_Down. -/
def keyDown : Nat := 0x01000015

/-- Qt.Key_PageUp. -/
def keyPageUp : Nat := 0x01000016

/-- Qt.Key_PageDown. -/
def keyPageDown : Nat := 0x01000017

/-- Qt.Key_F1. -/
def keyF1 : Nat := 0x01000030

/-- Qt.Key_F12. -/
def keyF12 : Nat := 0x0100003B

/-- Qt.Key_Space. -/
def keySpace : Nat := 0x20

/-- Qt.Key_A. -/
def keyA : Nat := 0x41

/-- Qt.Key_C. -/
def keyC : Nat := 0x43

/-- Qt.Key_V. -/
def keyV : Nat := 0x56

/-- Qt.Key_Z. -/
def keyZ : Nat := 0x5A

/-- Qt.Key_BracketLeft. -/
def keyBracketLeft : Nat := 0x5B

/-- Qt.Key_Backslash. -/
def keyBackslash : Nat := 0x5C

/-- Qt.Key_BracketRight. -/
def keyBracketRight : Nat := 0x5D

/-- Modifier-mask test (modifiers & flag). -/
def hasMod (m flag : Nat) : Bool := m &&& flag ≠ 0

/-- The f_codes dict for function keys 1..12. -/
def fCode (fn : Nat) : Option (List Nat) :=
  if fn = 1 then some [0x1B, 0x4F, 0x50]
  else if fn = 2 then some [0x1B, 0x4F, 0x51]
  else if fn = 3 then some [0x1B, 0x4F, 0x52]
  else if fn = 4 then some [0x1B, 0x4F, 0x53]
  else if fn = 5 then some [0x1B, 0x5B, 0x31, 0x35, 0x7E]
  else if fn = 6 then some [0x1B, 0x5B, 0x31, 0x37, 0x7E]
  else if fn = 7 then some [0x1B, 0x5B, 0x31, 0x38, 0x7E]
  else if fn = 8 then some [0x1B, 0x5B, 0x31, 0x39, 0x7E]
  else if fn = 9 then some [0x1B, 0x5B, 0x32, 0x30, 0x7E]
  else if fn = 10 then some [0x1B, 0x5B, 0x32, 0x31, 0x7E]
  else if fn = 11 then some [0x1B, 0x5B, 0x32, 0x33, 0x7E]
  else if fn = 12 then some [0x1B, 0x5B, 0x32, 0x34, 0x7E]
  else none

/-- What a key press does after the selection-clearing step: emit bytes (or
nothing) on data_to_send, or adjust the scroll offset. -/
inductive KeyAction
  | send (data : Option (List Nat))
  | scrollUpBy (n : Nat)
  | scrollDownBy (n : Nat)
deriving DecidableEq, Repr

/-- The key-to-bytes elif chain of keyPressEvent in source order; `rows` is
the widget row count (used by the Shift+PageUp/PageDown scroll amounts). -/
def classifyKey (rows : Nat) (ev : KeyEvent) : KeyAction :=
  if ev.key = keyReturn ∨ ev.key = keyEnter then .send (some [0x0D])
  else if ev.key = keyBackspace then .send (some [0x7F])
  else if ev.key = keyTab then
    .send (some (if hasMod ev.modifiers qShift then [0x1B, 0x5B, 0x5A] else [0x09]))
  else if ev.key = keyEscape then .send (some [0x1B])
  else if ev.key = keyUp then
    if hasMod ev.modifiers qShift then .scrollUpBy 1
    else .send (some [0x1B, 0x5B, 0x41])
  else if ev.key = keyDown then
    if hasMod ev.modifiers qShift then .scrollDownBy 1
    else .send (some [0x1B, 0x5B, 0x42])
  else if ev.key = keyRight then .send (some [0x1B, 0x5B, 0x43])
  else if ev.key = keyLeft then .send (some [0x1B, 0x5B, 0x44])
  else if ev.key = keyHome then .send (some [0x1B, 0x5B, 0x48])
  else if ev.key = keyEnd then .send (some [0x1B, 0x5B, 0x46])
  else if ev.key = keyPageUp then
    if hasMod ev.modifiers qShift then .scrollUpBy (rows - 1)
    else .send (some [0x1B, 0x5B, 0x35, 0x7E])
  else if ev.key = keyPageDown then
    if hasMod ev.modifiers qShift then .scrollDownBy (rows - 1)
    else .send (some [0x1B, 0x5B, 0x36, 0x7E])
  else if ev.key = keyInsert then .send (some [0x1B, 0x5B, 0x32, 0x7E])
  else if ev.key = keyDelete then .send (some [0x1B, 0x5B, 0x33, 0x7E])
  else if keyF1 ≤ ev.key ∧ ev.key ≤ keyF12 then .send (fCode (ev.key - keyF1 + 1))
  else if hasMod ev.modifiers qControl ∧ ¬hasMod ev.modifiers qAlt then
    if keyA ≤ ev.key ∧ ev.key ≤ keyZ then .send (some [ev.key - keyA + 1])
    else if ev.key = keyBracketLeft then .send (some [0x1B])
    else if ev.key = keyBackslash then .send (some [0x1C])
    else if ev.key = keyBracketRight then .send (some [0x1D])
    else if ev.key = keySpace then .send (some [0x00])
    else .send none
  else if hasMod ev.modifiers qAlt then
    if ev.text ≠ "" then .send (some (0x1B :: utf8Encode ev.text)) else .send none
  else if ev.text ≠ "" then .send (some (utf8Encode ev.text))
  else .send none

/-- Perform the classified key action on the widget. -/
def translateKey (w : Widget) (ev : KeyEvent) : Widget × Option (List Nat) :=
  match classifyKey w.emu.screen.rows ev with
  | .send d => (w, d)
  | .scrollUpBy n => (widget_scroll_up w n, none)
  | .scrollDownBy n => (widget_scroll_down w n, none)

/-- TerminalWidget.keyPressEvent: the Ctrl+Shift+C copy shortcut and the
Ctrl+Shift+V paste shortcut return early; every other key press first
clears an active selection, then runs the translation chain.  The returned
Option is the byte sequence emitted on data_to_send, the clipboard is the
paste source. -/
def keyPressEvent (w : Widget) (ev : KeyEvent) (clipboard : String) :
    Widget × Option (List Nat) :=
  if ev.modifiers = qControl ||| qShift ∧ ev.key = keyC then (w, none)
  else if ev.modifiers = qControl ||| qShift ∧ ev.key = keyV then
    (w, if clipboard ≠ "" then some (utf8Encode clipboard) else none)
  else
    let w1 :=
      if w.selection_start ≠ none ∨ w.selection_end ≠ none then
        { w with selection_start := none, selection_end := none }
      else w
    translateKey w1 ev

/-! ## Theorems -/

/-- Feeding two pieces of decoded text one after the other equals feeding
their concatenation: the parse state lives in `Emu` and persists across
calls. -/
theorem feedChars_append (e : Emu) (a b : List Char) :
    feedChars (feedChars e a) b = feedChars e (a ++ b) := by
  simp [feedChars, List.foldl_append]

/-- The ring bound: a push never leaves more than `cap` rows. -/
theorem pushHistory_length_le (cap : Nat) (r : List Cell) (h : List (List Cell)) :
    (pushHistory cap r h).length ≤ cap := by
  simp only [pushHistory, List.length_drop, List.length_append, List.length_singleton]
  omega

/-- A push into a full ring of positive capacity drops exactly the oldest
row and appends the new one. -/
theorem pushHistory_full (cap : Nat) (r : List Cell) (h : List (List Cell))
    (hful : h.length = cap) (hpos : 0 < cap) :
    pushHistory cap r h = h.drop 1 ++ [r] := by
  have h1 : (h ++ [r]).length - cap = 1 := by simp [hful]
  have h2 : (1 : Nat) ≤ h.length := by omega
  simp only [pushHistory, h1]
  exact List.drop_append_of_le_length h2

/-- Scrolling keeps the ring within capacity and keeps the capacity. -/
theorem scroll1_hist (s : Screen) (h : s.history.length ≤ s.histCap) :
    (scroll1 s).history.length ≤ s.histCap ∧ (scroll1 s).histCap = s.histCap := by
  unfold scroll1
  dsimp only
  split
  · exact ⟨pushHistory_length_le _ _ _, rfl⟩
  · exact ⟨h, rfl⟩

/-- Line feed keeps the ring within capacity and keeps the capacity. -/
theorem linefeed_hist (s : Screen) (h : s.history.length ≤ s.histCap) :
    (linefeed s).history.length ≤ s.histCap ∧ (linefeed s).histCap = s.histCap := by
  unfold linefeed
  split
  · exact scroll1_hist s h
  · exact ⟨h, rfl⟩

/-- The LF handler keeps the ring within capacity and keeps the capacity. -/
theorem doLF_hist (s : Screen) (h : s.history.length ≤ s.histCap) :
    (doLF s).history.length ≤ s.histCap ∧ (doLF s).histCap = s.histCap := by
  unfold doLF
  dsimp only
  obtain ⟨h1, h2⟩ := linefeed_hist s h
  split
  · exact ⟨h1, h2⟩
  · exact ⟨h1, h2⟩

/-- Printing a character keeps the ring within capacity and capacity. -/
theorem writeChar_hist (s : Screen) (c : Char) (h : s.history.length ≤ s.histCap) :
    (writeChar s c).history.length ≤ s.histCap ∧ (writeChar s c).histCap = s.histCap := by
  unfold writeChar
  dsimp only
  split
  · obtain ⟨h1, h2⟩ := linefeed_hist s h
    exact ⟨h1, h2⟩
  · exact ⟨h, rfl⟩

/-- CSI dispatch keeps the ring within capacity and keeps the capacity. -/
theorem csiDispatch_hist (s : Screen) (ps : List Char) (f : Char)
    (h : s.history.length ≤ s.histCap) :
    (csiDispatch s ps f).history.length ≤ s.histCap ∧
      (csiDispatch s ps f).histCap = s.histCap := by
  unfold csiDispatch setMargins
  dsimp only
  cases classifyCsi f
  all_goals try exact ⟨h, rfl⟩
  all_goals (repeat' split)
  all_goals exact ⟨h, rfl⟩

/-- One decoder step keeps the ring within capacity and the capacity. -/
theorem stepChar_hist (e : Emu) (c : Char)
    (h : e.screen.history.length ≤ e.screen.histCap) :
    (stepChar e c).screen.history.length ≤ (stepChar e c).screen.histCap := by
  unfold stepChar
  cases e.pstate
  case ground =>
    cases classifyGround c
    case escStart => exact h
    case crOp => exact h
    case lfOp =>
      obtain ⟨h1, h2⟩ := doLF_hist e.screen h
      simpa [h2] using h1
    case bsOp => exact h
    case ignore => exact h
    case printable =>
      obtain ⟨h1, h2⟩ := writeChar_hist e.screen c h
      simpa [h2] using h1
  case esc =>
    cases classifyEsc c
    case csiStart => exact h
    case resetOp => simp [resetScreen]
    case dropOp => exact h
  case csi ps =>
    cases classifyCsiChar c
    case param => exact h
    case finalByte =>
      obtain ⟨h1, h2⟩ := csiDispatch_hist e.screen ps c h
      simpa [h2] using h1
    case malformed => exact h

/-- The ring capacity is constant along decoding. -/
theorem stepChar_histCap (e : Emu) (c : Char) :
    (stepChar e c).screen.histCap = e.screen.histCap := by
  unfold stepChar
  cases e.pstate
  case ground =>
    cases classifyGround c
    all_goals try rfl
    all_goals (unfold doLF writeChar linefeed scroll1; dsimp only; repeat' split)
    all_goals rfl
  case esc =>
    cases classifyEsc c
    all_goals rfl
  case csi ps =>
    cases classifyCsiChar c
    all_goals try rfl
    all_goals (unfold csiDispatch setMargins; dsimp only; cases classifyCsi c)
    all_goals (repeat' split)
    all_goals rfl

/-- Feeding preserves the within-capacity invariant of the History Ring. -/
theorem feedChars_hist (e : Emu) (cs : List Char)
    (h : e.screen.history.length ≤ e.screen.histCap) :
    (feedChars e cs).screen.history.length ≤ (feedChars e cs).screen.histCap := by
  induction cs generalizing e with
  | nil => exact h
  | cons c cs ih => exact ih (stepChar e c) (stepChar_hist e c h)

/-- Feeding keeps the ring capacity. -/
theorem feedChars_histCap (e : Emu) (cs : List Char) :
    (feedChars e cs).screen.histCap = e.screen.histCap := by
  induction cs generalizing e with
  | nil => rfl
  | cons c cs ih => exact (ih (stepChar e c)).trans (stepChar_histCap e c)

/-- Chunk feeding preserves the within-capacity invariant. -/
theorem dwdFold_hist (e : Emu) (chunks : List (List Nat))
    (h : e.screen.history.length ≤ e.screen.histCap) :
    (chunks.foldl do_write_data e).screen.history.length ≤
      (chunks.foldl do_write_data e).screen.histCap := by
  induction chunks generalizing e with
  | nil => exact h
  | cons c cs ih => exact ih (do_write_data e c) (feedChars_hist e _ h)

/-- Chunk feeding keeps the ring capacity. -/
theorem dwdFold_histCap (e : Emu) (chunks : List (List Nat)) :
    (chunks.foldl do_write_data e).screen.histCap = e.screen.histCap := by
  induction chunks generalizing e with
  | nil => rfl
  | cons c cs ih => exact (ih (do_write_data e c)).trans (feedChars_histCap e _)

/-- C1 counterexample: the two-byte UTF-8 character 0xC3 0xA9 fed as one
chunk produces a different final Screen State than fed as two chunks split
between its bytes, because _do_write_data decodes each chunk with
errors="replace" before the parse state is consulted: the split feed
prints two U+FFFD replacement characters, the whole feed one printable
character. -/
theorem decoder_chunk_split_counterexample :
    do_write_data (do_write_data initEmu [0xC3]) [0xA9] ≠
      do_write_data initEmu [0xC3, 0xA9] := by
  decide

/-- C1 (amended): feeding chunks one at a time leaves the final Screen
State equal to feeding the concatenation, provided every chunk boundary
falls on a UTF-8 character boundary (stated: every suffix of the chunk list
decodes to the concatenation of its chunks' decodings).  Escape sequences
may straddle boundaries freely, because the parse state persists in the
decoder; multi-byte characters may not, because each chunk is decoded with
errors="replace" before reaching the parser. -/
theorem decoder_chunking_amended (e : Emu) (chunks : List (List Nat))
    (h : ∀ t ∈ chunks.tails,
      (t.map utf8DecodeReplace).flatten = utf8DecodeReplace t.flatten) :
    chunks.foldl do_write_data e = do_write_data e chunks.flatten := by
  induction chunks generalizing e with
  | nil => rfl
  | cons c cs ih =>
    have hhead : utf8DecodeReplace c ++ (cs.map utf8DecodeReplace).flatten =
        utf8DecodeReplace (c ++ cs.flatten) := by
      have h0 := h (c :: cs) (by rw [List.tails_cons]; exact List.mem_cons_self _ _)
      simpa using h0
    have htail : (cs.map utf8DecodeReplace).flatten = utf8DecodeReplace cs.flatten := by
      have h0 := h cs (by
        rw [List.tails_cons]
        exact List.mem_cons_of_mem _ ((List.mem_tails cs cs).2 List.suffix_rfl))
      exact h0
    have hsub : ∀ t ∈ cs.tails,
        (t.map utf8DecodeReplace).flatten = utf8DecodeReplace t.flatten := by
      intro t ht
      exact h t (by rw [List.tails_cons]; exact List.mem_cons_of_mem _ ht)
    have step : cs.foldl do_write_data (do_write_data e c) =
        do_write_data (do_write_data e c) cs.flatten := ih _ hsub
    calc (c :: cs).foldl do_write_data e
        = do_write_data (do_write_data e c) cs.flatten := step
      _ = feedChars e (utf8DecodeReplace c ++ utf8DecodeReplace cs.flatten) :=
          feedChars_append e _ _
      _ = do_write_data e (c :: cs).flatten := by
          rw [← htail, hhead]
          rfl

/-- C1 (amended) witness: two chunks split at a character boundary satisfy
the hypothesis and feed to the same state as the concatenation. -/
theorem decoder_chunking_amended_witness :
    (∀ t ∈ ([[104, 105], [10]] : List (List Nat)).tails,
      (t.map utf8DecodeReplace).flatten = utf8DecodeReplace t.flatten) ∧
    ([[104, 105], [10]] : List (List Nat)).foldl do_write_data initEmu =
      do_write_data initEmu ([[104, 105], [10]] : List (List Nat)).flatten :=
  ⟨by decide, decoder_chunking_amended initEmu _ (by decide)⟩

/-- C2: along any sequence of Decoder feeds from the widget's initial
state, the History Ring never holds more than its configured capacity of
10000 rows; and a line feed that scrolls while the ring is full evicts
exactly the single oldest (first-inserted) row and leaves the row count
unchanged. -/
theorem history_ring_capacity_fifo (chunks : List (List Nat)) (s : Screen)
    (hful : s.history.length = 10000) (hcap : s.histCap = 10000)
    (hcur : s.cursor.y = s.marginBottom) (htop : s.marginTop = 0)
    (hbot : s.marginBottom = s.rows - 1) :
    (chunks.foldl do_write_data initEmu).screen.history.length ≤ 10000 ∧
    (linefeed s).history =
      s.history.drop 1 ++ [s.grid.getD 0 (blankRow s.cols)] ∧
    (linefeed s).history.length = 10000 := by
  refine ⟨?_, ?_⟩
  · have h1 := dwdFold_hist initEmu chunks (by simp [initEmu, initScreen])
    have h2 := dwdFold_histCap initEmu chunks
    rw [h2] at h1
    exact h1
  · have hsc : linefeed s = scroll1 s := by
      unfold linefeed
      rw [if_pos hcur]
    have hpush : (scroll1 s).history =
        pushHistory s.histCap (s.grid.getD s.marginTop (blankRow s.cols)) s.history := by
      unfold scroll1
      dsimp only
      rw [if_pos ⟨htop, hbot⟩]
    have hfull := pushHistory_full s.histCap (s.grid.getD s.marginTop (blankRow s.cols))
      s.history (by omega) (by omega)
    constructor
    · rw [hsc, hpush, hfull, htop]
    · rw [hsc, hpush, hfull]
      simp
      omega

/-- C2 witness: the bound at a concrete feed and the eviction equation at a
concrete full ring. -/
theorem history_ring_capacity_fifo_witness :
    ((([[10]] : List (List Nat)).foldl do_write_data initEmu).screen.history.length ≤ 10000) ∧
    (linefeed fullHistScreen).history =
      fullHistScreen.history.drop 1 ++
        [fullHistScreen.grid.getD 0 (blankRow fullHistScreen.cols)] ∧
    (linefeed fullHistScreen).history.length = 10000 := by
  have hlen : fullHistScreen.history.length = 10000 := by
    show (List.replicate 10000 (blankRow 80)).length = 10000
    rw [List.length_replicate]
  have h := history_ring_capacity_fifo [[10]] fullHistScreen hlen rfl rfl rfl rfl
  exact ⟨h.1, h.2.1, h.2.2⟩

/-- C3: with a non-empty host and username but an empty password and no
existing key file, connect returns False, delivers exactly one error
callback (the no-credentials cause), and never attempts network
input/output. -/
theorem connect_no_credentials (cfg : SSHConfig) (keyFileExists : Bool)
    (net : NetOutcome) (hh : cfg.host ≠ "") (hu : cfg.username ≠ "")
    (hp : cfg.password = "") (hk : keyFileExists = false) :
    sshConnect cfg keyFileExists net =
      { ret := false, errors := ["No password or key file specified"],
        networkAttempted := false } := by
  unfold sshConnect
  rw [if_neg hh, if_neg hu, if_pos]
  exact ⟨hp, by simp [hk]⟩

/-- C3 witness: a concrete credential-less config. -/
theorem connect_no_credentials_witness :
    sshConnect { host := "router1", username := "admin" } false NetOutcome.ok =
      { ret := false, errors := ["No password or key file specified"],
        networkAttempted := false } :=
  connect_no_credentials _ false NetOutcome.ok (by decide) (by decide) rfl rfl

/-- The error count of a reader loop never exceeds one. -/
theorem read_loop_errors_le_one (trace : List ReadIter) :
    (read_loop trace).2 ≤ 1 := by
  induction trace with
  | nil => simp [read_loop]
  | cons it rest ih =>
    unfold read_loop
    dsimp only
    split
    · split
      · exact ih
      · dsimp only
        split <;> simp
    · simp

/-- After an error-free running prefix, a read error stops the loop: no
data after the prefix is delivered, and the error callback fires once when
the running flag is still set at the handler, not at all otherwise. -/
theorem read_loop_stops_at_error (pre post : List ReadIter) (it : ReadIter)
    (hpre : ∀ j ∈ pre, j.runningAtCheck = true ∧ j.outcome ≠ ReadOutcome.err)
    (hrun : it.runningAtCheck = true) (herr : it.outcome = ReadOutcome.err) :
    read_loop (pre ++ it :: post) =
      ((read_loop pre).1, if it.runningAtHandler then 1 else 0) := by
  induction pre with
  | nil =>
    simp only [List.nil_append]
    unfold read_loop
    rw [hrun, herr]
    simp
  | cons j rest ih =>
    obtain ⟨hj1, hj2⟩ := hpre j (List.mem_cons_self j rest)
    have ih2 := ih fun x hx => hpre x (List.mem_cons_of_mem j hx)
    simp only [List.cons_append]
    unfold read_loop
    rw [hj1]
    dsimp only
    cases houc : j.outcome with
    | err => exact absurd houc hj2
    | ok d =>
      rw [ih2]
      rfl

/-- C4: in both reader loops (SSH and Serial share the `read_loop`
structure), a read error raised while the session is still running stops
the loop and fires the error callback exactly once; if disconnect already
cleared the running flag, the loop stops without any error callback.  In
every trace at most one error callback fires. -/
theorem reader_loop_error_handling (trace pre post : List ReadIter)
    (it : ReadIter)
    (hpre : ∀ j ∈ pre, j.runningAtCheck = true ∧ j.outcome ≠ ReadOutcome.err)
    (hrun : it.runningAtCheck = true) (herr : it.outcome = ReadOutcome.err) :
    (read_loop trace).2 ≤ 1 ∧
    read_loop (pre ++ it :: post) =
      ((read_loop pre).1, if it.runningAtHandler then 1 else 0) :=
  ⟨read_loop_errors_le_one trace, read_loop_stops_at_error pre post it hpre hrun herr⟩

/-- C4 witness: a concrete delivered chunk, then an error with the running
flag still set (one callback) at a concrete trace. -/
theorem reader_loop_error_handling_witness :
    (read_loop [⟨true, ReadOutcome.ok (some [1]), true⟩]).2 ≤ 1 ∧
    read_loop ([⟨true, ReadOutcome.ok (some [1]), true⟩] ++
        ⟨true, ReadOutcome.err, true⟩ :: [⟨true, ReadOutcome.ok (some [2]), true⟩]) =
      ((read_loop [⟨true, ReadOutcome.ok (some [1]), true⟩]).1,
        if (true : Bool) then 1 else 0) :=
  reader_loop_error_handling [⟨true, ReadOutcome.ok (some [1]), true⟩]
    [⟨true, ReadOutcome.ok (some [1]), true⟩]
    [⟨true, ReadOutcome.ok (some [2]), true⟩]
    ⟨true, ReadOutcome.err, true⟩ (by decide) rfl rfl

/-- Selection normalization does not depend on the endpoint order. -/
theorem normSel_comm (a b : Nat × Nat) : normSel a b = normSel b a := by
  rcases a with ⟨ac, ar⟩
  rcases b with ⟨bc, br⟩
  unfold normSel
  dsimp only
  by_cases h1 : ar > br ∨ (ar = br ∧ ac > bc)
  · rw [if_pos h1]
    by_cases h2 : br > ar ∨ (br = ar ∧ bc > ac)
    · exact absurd h2 (by omega)
    · rw [if_neg h2]
  · rw [if_neg h1]
    by_cases h2 : br > ar ∨ (br = ar ∧ bc > ac)
    · rw [if_pos h2]
    · rw [if_neg h2]
      obtain ⟨h3, h4⟩ : ar = br ∧ ac = bc := by omega
      rw [h3, h4]

/-- C5: resolving the selection with anchor and focus swapped yields the
same text, and resolving twice with no mutation in between yields the same
text both times (the resolver reads the buffer without mutating state, so
the second call is the same pure application). -/
theorem selection_swap_symmetric_idempotent (cols : Nat)
    (buffer : List (List String)) (a f : Option (Nat × Nat)) :
    get_selected_text cols buffer a f = get_selected_text cols buffer f a ∧
    get_selected_text cols buffer a f = get_selected_text cols buffer a f := by
  refine ⟨?_, rfl⟩
  cases a with
  | none => cases f <;> rfl
  | some s =>
    cases f with
    | none => rfl
    | some e =>
      simp only [get_selected_text]
      rw [normSel_comm]

/-- C6: the effective foreground colour of a rendered cell follows the
priority order: explicit per-cell terminal colour, else the syntax-overlay
colour of the column, else the default foreground; an explicit terminal
colour is never overridden by the overlay. -/
theorem effective_color_priority (fgName : PyColorCode)
    (m : List (Nat × String)) (col : Nat) (dflt : String) :
    effectiveFg fgName m col dflt = effectiveFgSpec fgName m col dflt ∧
    (∀ c, get_color fgName = some c → effectiveFg fgName m col dflt = c) := by
  constructor
  · unfold effectiveFg effectiveFgSpec
    cases get_color fgName <;> cases lookupColor m col <;> rfl
  · intro c hc
    simp only [effectiveFg, hc]

/-- C6 witness: a cell with explicit colour 1 (red) keeps its terminal
colour even with an overlay colour present on its column. -/
theorem effective_color_priority_witness :
    effectiveFg (PyColorCode.pyint 1) [(0, "#123456")] 0 DEFAULT_FG =
      effectiveFgSpec (PyColorCode.pyint 1) [(0, "#123456")] 0 DEFAULT_FG ∧
    get_color (PyColorCode.pyint 1) = some "#cd0000" ∧
    effectiveFg (PyColorCode.pyint 1) [(0, "#123456")] 0 DEFAULT_FG = "#cd0000" := by
  have h := effective_color_priority (PyColorCode.pyint 1) [(0, "#123456")] 0 DEFAULT_FG
  exact ⟨h.1, by decide, h.2 "#cd0000" (by decide)⟩

/-- C7: on the line "show ip interface" with highlighting enabled, every
column of "show" and of "interface" gets the keyword colour and every
column of "ip" the network colour; with highlighting disabled the colour
map is empty (and the function is total, so no error occurs). -/
theorem syntax_highlight_show_ip_interface :
    (∀ i ∈ List.range 4,
      lookupColor (get_syntax_colors true ("show ip interface".data)) i =
        some "#89b4fa") ∧
    (∀ i ∈ [5, 6],
      lookupColor (get_syntax_colors true ("show ip interface".data)) i =
        some "#a6e3a1") ∧
    (∀ i ∈ (List.range 9).map (8 + ·),
      lookupColor (get_syntax_colors true ("show ip interface".data)) i =
        some "#89b4fa") ∧
    get_syntax_colors false ("show ip interface".data) = [] := by
  set_option maxRecDepth 8000 in decide

/-- C7 witness: column 0 carries the keyword colour. -/
theorem syntax_highlight_show_ip_interface_witness :
    (0 ∈ List.range 4) ∧
    lookupColor (get_syntax_colors true ("show ip interface".data)) 0 =
      some "#89b4fa" :=
  ⟨by decide, syntax_highlight_show_ip_interface.1 0 (by decide)⟩

/-- C8: resizing to 100x30 and then to 80x24 and feeding 24 lines of text
leaves the visible buffer identical to a screen constructed directly at
80x24 fed the same lines (the double resize restores the construction
state, so the feeds agree). -/
theorem resize_roundtrip (lines : List String) (hlen : lines.length = 24) :
    visibleBuffer (feedLines (emuResize (emuResize initEmu 30 100) 24 80) lines) =
      visibleBuffer (feedLines initEmu lines) := by
  have h : emuResize (emuResize initEmu 30 100) 24 80 = initEmu := by
    set_option maxRecDepth 8000 in decide
  rw [h]

/-- C8 witness: 24 concrete lines. -/
theorem resize_roundtrip_witness :
    visibleBuffer (feedLines (emuResize (emuResize initEmu 30 100) 24 80)
        (List.replicate 24 "hello")) =
      visibleBuffer (feedLines initEmu (List.replicate 24 "hello")) :=
  resize_roundtrip (List.replicate 24 "hello") (by simp)

/-- C9 counterexample: scroll up one line after a row has entered history,
then clear the terminal: the reset empties the History Ring but leaves the
scroll offset at 1, violating the claimed invariant after the
clear-terminal operation. -/
theorem scroll_offset_clear_counterexample :
    ¬ scrollInvariant
      (widget_clear_terminal
        (widget_scroll_up (widget_write_data initWidget (List.replicate 24 10)) 1)) := by
  set_option maxRecDepth 8000 in decide

/-- C9 (amended): processing received data, scrolling up, and scrolling
down all preserve 0 le scroll_offset le history length (the lower bound is
inherent in Nat), and processing any received data chunk resets the offset
to 0; clearing the terminal, however, leaves the offset unchanged and can
leave it above the emptied history, as the counterexample shows. -/
theorem scroll_offset_invariant_amended (w : Widget) (n : Nat)
    (data : List Nat) (h : scrollInvariant w) :
    scrollInvariant (widget_scroll_up w n) ∧
    scrollInvariant (widget_scroll_down w n) ∧
    scrollInvariant (widget_write_data w data) ∧
    (widget_write_data w data).scroll_offset = 0 := by
  refine ⟨?_, ?_, ?_, rfl⟩
  · exact Nat.min_le_right _ _
  · unfold scrollInvariant widget_scroll_down at *
    dsimp only at *
    omega
  · exact Nat.zero_le _

/-- C9 (amended) witness: the fresh widget satisfies the invariant and the
three operations keep it. -/
theorem scroll_offset_invariant_amended_witness :
    scrollInvariant (widget_scroll_up initWidget 1) ∧
    scrollInvariant (widget_scroll_down initWidget 1) ∧
    scrollInvariant (widget_write_data initWidget [104]) ∧
    (widget_write_data initWidget [104]).scroll_offset = 0 :=
  scroll_offset_invariant_amended initWidget 1 [104] (by decide)

/-- Key translation never touches the selection endpoints. -/
theorem translateKey_sel (w : Widget) (ev : KeyEvent) :
    (translateKey w ev).1.selection_start = w.selection_start ∧
    (translateKey w ev).1.selection_end = w.selection_end := by
  unfold translateKey
  cases classifyKey w.emu.screen.rows ev
  · exact ⟨rfl, rfl⟩
  · exact ⟨rfl, rfl⟩
  · exact ⟨rfl, rfl⟩

/-- C10: every key press other than the Ctrl+Shift+C copy shortcut and the
Ctrl+Shift+V paste shortcut leaves both selection endpoints cleared to None
before the key is translated and emitted (the translation chain never
re-creates a selection). -/
theorem keypress_clears_selection (w : Widget) (ev : KeyEvent) (clip : String)
    (hc : ¬(ev.modifiers = qControl ||| qShift ∧ ev.key = keyC))
    (hv : ¬(ev.modifiers = qControl ||| qShift ∧ ev.key = keyV)) :
    (keyPressEvent w ev clip).1.selection_start = none ∧
    (keyPressEvent w ev clip).1.selection_end = none := by
  unfold keyPressEvent
  rw [if_neg hc, if_neg hv]
  dsimp only
  by_cases hsel : w.selection_start ≠ none ∨ w.selection_end ≠ none
  · simp only [if_pos hsel]
    obtain ⟨h1, h2⟩ := translateKey_sel
      { w with selection_start := none, selection_end := none } ev
    rw [h1, h2]
    exact ⟨rfl, rfl⟩
  · simp only [if_neg hsel]
    obtain ⟨h1, h2⟩ := translateKey_sel w ev
    rw [h1, h2]
    push_neg at hsel
    exact ⟨hsel.1, hsel.2⟩

/-- C10 witness: a plain letter key press on a widget with an active
selection ends with both endpoints None. -/
theorem keypress_clears_selection_witness :
    (keyPressEvent
      { initWidget with selection_start := some (1, 1), selection_end := some (2, 2) }
      ⟨0x41, 0, "a"⟩ "").1.selection_start = none ∧
    (keyPressEvent
      { initWidget with selection_start := some (1, 1), selection_end := some (2, 2) }
      ⟨0x41, 0, "a"⟩ "").1.selection_end = none :=
  keypress_clears_selection _ _ _ (by decide) (by decide)

end Qstm
